import Mathlib

/-!
# Products.jsx — the catalog manager component

A shallow embedding of `src/components/Products.jsx`.

* The six `useState` cells are the fields of `State`.
* A handler is a function of the state captured by the render that created it
  (its closure) and of the outcome of the HTTP call it awaits.  It returns the
  ordered list of effects it performs: HTTP requests issued through axios and
  calls of the `useState` setters.  `State.run` applies the setter calls of
  such a list to a state, in order.
* `console.log` / `console.error` calls write to the diagnostic channel only
  and are left out.
* The host functions `Number.prototype.toString` and `parseInt` are modelled
  on integral Numbers; digit generation for non-integral Numbers and
  `parseFloat` are parameters of the handlers that use them.
-/

namespace Products

/-! ## Data model -/

/-- A product identifier as it arrives in the JSON of the backend: a number or
a string.  `===` on two such values is equality of the values. -/
inductive Ident where
  | num (n : Int)
  | str (s : String)
  deriving DecidableEq, Repr

/-- ECMAScript Number values.  A finite integral value is `int z` (`+0` and
`-0` are both `int 0`); a finite non-integral value is `frac m k`, standing for
`m / 2 ^ k` with `m` odd and `0 < k`.  An integer `z` is a Number when it has at
most 53 significant bits, that is when `roundToDouble z.natAbs = z.natAbs`
(and `z.natAbs < 2 ^ 1024`). -/
inductive JSNumber where
  | nan
  | inf (negative : Bool)
  | int (z : Int)
  | frac (m : Int) (k : Nat)
  deriving DecidableEq, Repr

/-- A product object of the backend.  `none` in `description` and `image`
stands for `null` / `undefined`. -/
structure Product where
  id : Ident
  name : String
  description : Option String
  price : JSNumber
  stock : JSNumber
  image : Option String
  deriving DecidableEq, Repr

/-- The value of the `formData` cell: every field is text. -/
structure FormData where
  name : String
  description : String
  price : String
  stock : String
  image : String
  deriving DecidableEq, Repr

/-- The `productData` object built by `handleSubmit`, the body of the create
and update requests. -/
structure ProductData where
  name : String
  description : String
  price : JSNumber
  stock : JSNumber
  image : String
  deriving DecidableEq, Repr

/-- The `useState` cells of the component (lines 20-31). -/
structure State where
  products : List Product
  loading : Bool
  error : Option String
  showModal : Bool
  editingProduct : Option Product
  formData : FormData
  deriving DecidableEq, Repr

/-- The all-empty draft, the initial value of `formData` and the argument of
`setFormData` in `resetForm`. -/
def emptyForm : FormData :=
  { name := "", description := "", price := "", stock := "", image := "" }

/-- The initial values given to `useState` (lines 20-31). -/
def State.init : State :=
  { products := [], loading := true, error := none, showModal := false,
    editingProduct := none, formData := emptyForm }

/-! ## Effects -/

/-- A request issued through axios against `API_BASE_URL`:
`get` is `GET /products`, `post d` is `POST /products` with body `d`,
`patch id d` is `PATCH /products/${id}` with body `d`,
`delete id` is `DELETE /products/${id}`. -/
inductive Request where
  | get
  | post (productData : ProductData)
  | patch (id : Ident) (productData : ProductData)
  | delete (id : Ident)
  deriving DecidableEq, Repr

/-- Why an awaited axios promise was rejected. -/
inductive HttpError where
  | timeout
  | status (code : Nat)
  | network
  deriving DecidableEq, Repr

/-- A call of one of the `useState` setters.  `setFormDataField name value` is
the functional update `setFormData(prev => ({...prev, [name]: value}))`. -/
inductive SetCall where
  | setProducts (v : List Product)
  | setLoading (v : Bool)
  | setError (v : Option String)
  | setShowModal (v : Bool)
  | setEditingProduct (v : Option Product)
  | setFormData (v : FormData)
  | setFormDataField (name value : String)
  deriving DecidableEq, Repr

/-- One effect of a handler. -/
inductive Effect where
  | http (r : Request)
  | set (c : SetCall)
  deriving DecidableEq, Repr

/-- The object `{...prev, [name]: value}` for the five keys of the draft; any
other key adds a property that nothing reads. -/
def FormData.setField (prev : FormData) (name value : String) : FormData :=
  if name = "name" then { prev with name := value }
  else if name = "description" then { prev with description := value }
  else if name = "price" then { prev with price := value }
  else if name = "stock" then { prev with stock := value }
  else if name = "image" then { prev with image := value }
  else prev

/-- The state after one setter call. -/
def SetCall.apply (s : State) : SetCall → State
  | .setProducts v => { s with products := v }
  | .setLoading v => { s with loading := v }
  | .setError v => { s with error := v }
  | .setShowModal v => { s with showModal := v }
  | .setEditingProduct v => { s with editingProduct := v }
  | .setFormData v => { s with formData := v }
  | .setFormDataField name value => { s with formData := s.formData.setField name value }

/-- The state after one effect: a request leaves the state as it is. -/
def Effect.apply (s : State) : Effect → State
  | .http _ => s
  | .set c => c.apply s

/-- The state after the effects of a handler, applied in order. -/
def State.run (s : State) (effects : List Effect) : State :=
  effects.foldl Effect.apply s

/-- The requests among the effects of a handler, in order. -/
def requests (effects : List Effect) : List Request :=
  effects.filterMap fun e => match e with
    | .http r => some r
    | .set _ => none

/-! ## Host functions on Numbers and strings -/

/-- The decimal digit character of `d < 10`. -/
def digitChar (d : Nat) : Char :=
  match d with
  | 0 => '0' | 1 => '1' | 2 => '2' | 3 => '3' | 4 => '4'
  | 5 => '5' | 6 => '6' | 7 => '7' | 8 => '8' | _ => '9'

/-- The decimal digits of `n`, most significant first, computed with `fuel`
division steps. -/
def decimalDigits : Nat → Nat → List Char
  | 0, _ => []
  | fuel + 1, n =>
    if n < 10 then [digitChar n]
    else decimalDigits fuel (n / 10) ++ [digitChar (n % 10)]

/-- The decimal representation of `n` (`"0"` for zero, no leading zero
otherwise). -/
def decimalString (n : Nat) : List Char :=
  decimalDigits (n + 1) n

/-- How many low bits of `n` do not fit in a 53-bit significand. -/
def excessBits : Nat → Nat → Nat
  | 0, _ => 0
  | fuel + 1, n => if n < 2 ^ 53 then 0 else excessBits fuel (n / 2) + 1

/-- The Number value of the natural number `n`, as a natural number: `n`
rounded to 53 significant bits, to nearest, ties to even.  (The exponent range
is applied by `toNumber`.) -/
def roundToDouble (n : Nat) : Nat :=
  let sh := excessBits n n
  let q := n / 2 ^ sh
  let r := n % 2 ^ sh
  let q1 := if 2 ^ sh < 2 * r ∨ (2 * r = 2 ^ sh ∧ q % 2 = 1) then q + 1 else q
  q1 * 2 ^ sh

/-- The Number value of `± n`: a rounded value of `2 ^ 1024 = 16 ^ 256` or more
overflows to an infinity. -/
def toNumber (negative : Bool) (n : Nat) : JSNumber :=
  let r := roundToDouble n
  if 16 ^ 256 ≤ r then .inf negative
  else .int (if negative then -(r : Int) else (r : Int))

/-- The decimals with `digits - e` significant digits next to `x` (the
multiples of `10 ^ e` below and above it), the closer one first and on a tie
the one with an even digit string; the first whose Number value is `x`. -/
def shortestCandidate (x e : Nat) : Option Nat :=
  let u := 10 ^ e
  let lo := x / u * u
  let hi := lo + u
  let loFirst : Bool := x - lo < hi - x ∨ (x - lo = hi - x ∧ (x / u) % 2 = 0)
  let a := if loFirst then lo else hi
  let b := if loFirst then hi else lo
  if roundToDouble a = x then some a
  else if roundToDouble b = x then some b
  else none

/-- The decimal `s × 10 ^ (n - k)` of Number::toString for the integral Number
`x`: a decimal whose Number value is `x`, with as few significant digits `k` as
possible. -/
def shortestDecimal (x : Nat) : Nat :=
  let n := (decimalString x).length
  (((List.range n).reverse).findSome? (shortestCandidate x)).getD x

/-- The digits without the zeros at the end. -/
def stripTrailingZeros (ds : List Char) : List Char :=
  (ds.reverse.dropWhile (fun c => c == '0')).reverse

/-- Number::toString (radix 10) for a positive integral Number `x`: with `n`
the number of digits of the shortest decimal, plain digits when `n ≤ 21`,
exponent form (`d.ddde+N`) otherwise. -/
def unsignedToString (x : Nat) : List Char :=
  let ds := decimalString (shortestDecimal x)
  let n := ds.length
  if n ≤ 21 then ds
  else
    let e := 'e' :: '+' :: decimalString (n - 1)
    match stripTrailingZeros ds with
    | [] => ds
    | [d] => d :: e
    | d :: rest => d :: '.' :: (rest ++ e)

/-- The host function `Number.prototype.toString()` without radix.  `fracToString m k` is the
host's text of the non-integral Number `m / 2 ^ k`. -/
def numberToString (fracToString : Int → Nat → String) : JSNumber → String
  | .nan => "NaN"
  | .inf false => "Infinity"
  | .inf true => "-Infinity"
  | .int z =>
    if z = 0 then "0"
    else if z < 0 then String.mk ('-' :: unsignedToString z.natAbs)
    else String.mk (unsignedToString z.natAbs)
  | .frac m k => fracToString m k

/-- StrWhiteSpaceChar: the white space and line terminator code points that
`parseInt` skips at the start of its input. -/
def isStrWhiteSpaceChar (c : Char) : Bool :=
  let n := c.toNat
  n = 0x09 ∨ n = 0x0A ∨ n = 0x0B ∨ n = 0x0C ∨ n = 0x0D ∨ n = 0x20 ∨ n = 0xA0 ∨
  n = 0x1680 ∨ (0x2000 ≤ n ∧ n ≤ 0x200A) ∨ n = 0x2028 ∨ n = 0x2029 ∨
  n = 0x202F ∨ n = 0x205F ∨ n = 0x3000 ∨ n = 0xFEFF

/-- The value of `c` as a digit, if it is one in some radix up to 16. -/
def digitValue (c : Char) : Option Nat :=
  let n := c.toNat
  if 48 ≤ n ∧ n ≤ 57 then some (n - 48)
  else if 97 ≤ n ∧ n ≤ 102 then some (n - 87)
  else if 65 ≤ n ∧ n ≤ 70 then some (n - 55)
  else none

/-- Whether `c` is a digit of radix `R`. -/
def isRadixDigit (R : Nat) (c : Char) : Bool :=
  match digitValue c with
  | some d => d < R
  | none => false

/-- The radix chosen by `parseInt` without a radix argument, and the input
after a `0x` / `0X` prefix is removed. -/
def stripPrefix (S : List Char) : Nat × List Char :=
  match S with
  | a :: b :: rest => if a = '0' ∧ (b = 'x' ∨ b = 'X') then (16, rest) else (10, S)
  | _ => (10, S)

/-- The host function `parseInt(string)` without a radix: skip white space,
read a sign and a `0x` prefix, read the longest run of digits; `NaN` when there
is none. -/
def parseInt (string : String) : JSNumber :=
  let S := string.data.dropWhile isStrWhiteSpaceChar
  let negative : Bool := S.head? = some '-'
  let S := match S with
    | c :: rest => if c = '+' ∨ c = '-' then rest else S
    | [] => S
  let (R, S) := stripPrefix S
  let Z := S.takeWhile (isRadixDigit R)
  if Z = [] then .nan
  else toNumber negative (Z.foldl (fun acc c => acc * R + (digitValue c).getD 0) 0)

/-- The comparison `x > 0` for a Number `x`. -/
def JSNumber.gtZero : JSNumber → Bool
  | .nan => false
  | .inf negative => !negative
  | .int z => 0 < z
  | .frac m _ => 0 < m

/-- The expression `v || ''` for a string-or-null value: the empty string is
falsy too. -/
def orEmpty (v : Option String) : String :=
  match v with
  | some s => if s = "" then "" else s
  | none => ""

/-! ## Handlers (lines 37-159) -/

/-- The function `resetForm` (lines 151-159). -/
def resetForm : List Effect :=
  [.set (.setFormData emptyForm)]

/-- The function `fetchProducts` (lines 37-59).  `response` is the outcome of the awaited
`axios.get`; on success it carries `response.data`. -/
def fetchProducts (response : Except HttpError (List Product)) : List Effect :=
  [.set (.setLoading true), .http .get] ++
  (match response with
   | .ok data => [.set (.setProducts data), .set (.setError none)]
   | .error _ =>
     [.set (.setError (some
        "Failed to fetch products. Please check if your Laravel backend is running."))]) ++
  [.set (.setLoading false)]

/-- The function `createProduct` (lines 62-72).  `st` is the state of the render that
created the handler; on success `response` carries `response.data.product`. -/
def createProduct (st : State) (productData : ProductData)
    (response : Except HttpError Product) : List Effect :=
  .http (.post productData) ::
  (match response with
   | .ok product =>
     [.set (.setProducts (st.products ++ [product])), .set (.setShowModal false)] ++ resetForm
   | .error _ => [.set (.setError (some "Failed to create product"))])

/-- The function `updateProduct` (lines 75-88). -/
def updateProduct (st : State) (id : Ident) (productData : ProductData)
    (response : Except HttpError Product) : List Effect :=
  .http (.patch id productData) ::
  (match response with
   | .ok returned =>
     [.set (.setProducts (st.products.map fun product =>
        if product.id = id then returned else product)),
      .set (.setShowModal false), .set (.setEditingProduct none)] ++ resetForm
   | .error _ => [.set (.setError (some "Failed to update product"))])

/-- The function `deleteProduct` (lines 91-101).  `confirm` is the answer given to
`window.confirm`. -/
def deleteProduct (st : State) (id : Ident) (confirm : Bool)
    (response : Except HttpError Unit) : List Effect :=
  if confirm then
    .http (.delete id) ::
    (match response with
     | .ok _ => [.set (.setProducts (st.products.filter fun product => product.id ≠ id))]
     | .error _ => [.set (.setError (some "Failed to delete product"))])
  else []

/-- The `productData` object of `handleSubmit` (lines 106-112). -/
def productDataOf (parseFloat : String → JSNumber) (formData : FormData) : ProductData :=
  { name := formData.name
    description := formData.description
    price := parseFloat formData.price
    stock := parseInt formData.stock
    image := formData.image }

/-- The function `handleSubmit` (lines 104-119).  `editingProduct` is `null`
or a product object, and an object is truthy.  `e.preventDefault()` only stops
the browser from reloading the page and has no effect here. -/
def handleSubmit (parseFloat : String → JSNumber) (st : State)
    (response : Except HttpError Product) : List Effect :=
  let productData := productDataOf parseFloat st.formData
  match st.editingProduct with
  | some editing => updateProduct st editing.id productData response
  | none => createProduct st productData response

/-- The function `handleInputChange` (lines 122-128), for an event whose target has the
given `name` and `value`. -/
def handleInputChange (name value : String) : List Effect :=
  [.set (.setFormDataField name value)]

/-- The function `handleEdit` (lines 131-141). -/
def handleEdit (fracToString : Int → Nat → String) (product : Product) : List Effect :=
  [.set (.setEditingProduct (some product)),
   .set (.setFormData
     { name := product.name
       description := orEmpty product.description
       price := numberToString fracToString product.price
       stock := numberToString fracToString product.stock
       image := orEmpty product.image }),
   .set (.setShowModal true)]

/-- The function `handleAdd` (lines 144-148). -/
def handleAdd : List Effect :=
  [.set (.setEditingProduct none)] ++ resetForm ++ [.set (.setShowModal true)]

/-- The `onHide` handler of the modal (line 254). -/
def modalOnHide : List Effect :=
  [.set (.setShowModal false)]

/-- The `onClick` handler of the Cancel button (line 332). -/
def cancelOnClick : List Effect :=
  [.set (.setShowModal false)]

/-- The `onClose` handler of the error alert (line 187). -/
def alertOnClose : List Effect :=
  [.set (.setError none)]

/-- The effect run on mount (lines 162-164). -/
def onMount (response : Except HttpError (List Product)) : List Effect :=
  fetchProducts response

/-! ## Render (lines 166-342) -/

/-- One product card (lines 203-248). -/
structure Card where
  key : Ident
  image : Option String
  title : String
  text : String
  price : JSNumber
  stockBg : String
  stock : JSNumber
  deriving DecidableEq, Repr

/-- What is shown under the heading: the empty-state alert or the grid. -/
inductive Body where
  | emptyState
  | grid (cards : List Card)
  deriving DecidableEq, Repr

/-- The add/edit modal (lines 254-340). -/
structure ModalView where
  visible : Bool
  title : String
  form : FormData
  submitLabel : String
  deriving DecidableEq, Repr

/-- What the component returns. -/
inductive View where
  | spinner
  | page (alert : Option String) (body : Body) (modal : ModalView)
  deriving DecidableEq, Repr

/-- The card of one product. -/
def renderCard (product : Product) : Card :=
  { key := product.id
    image := product.image.filter fun src => src ≠ ""
    title := product.name
    text := if orEmpty product.description = "" then "No description available"
            else orEmpty product.description
    price := product.price
    stockBg := if product.stock.gtZero then "info" else "danger"
    stock := product.stock }

/-- The render function of the component. -/
def render (s : State) : View :=
  if s.loading then .spinner
  else
    .page (s.error.filter fun message => message ≠ "")
      (if s.products.length = 0 ∧ ¬ s.loading then .emptyState
       else .grid (s.products.map renderCard))
      { visible := s.showModal
        title := if s.editingProduct.isSome then "Edit Product" else "Add New Product"
        form := s.formData
        submitLabel := if s.editingProduct.isSome then "Update Product" else "Create Product" }

/-- The number of product cards in a view. -/
def View.cardCount : View → Nat
  | .spinner => 0
  | .page _ .emptyState _ => 0
  | .page _ (.grid cards) _ => cards.length

/-! ## Example values -/

/-- A product with identifier 1. -/
def mug : Product :=
  { id := .num 1, name := "Mug", description := none, price := .frac 1999 1,
    stock := .int 5, image := none }

/-- A product with identifier 2. -/
def cup : Product :=
  { id := .num 2, name := "Cup", description := some "Small", price := .int 4,
    stock := .int 0, image := some "https://example.com/cup.jpg" }

/-- A state after loading, whose list is `[mug, cup]`. -/
def loaded : State :=
  { State.init with products := [mug, cup], loading := false }

/-- A product with identifier 3 and 12 pieces in stock. -/
def cup12 : Product :=
  { id := .num 3, name := "Tall cup", description := none, price := .int 6,
    stock := .int 12, image := some "https://example.com/tall.jpg" }

/-- A product with identifier 4 whose stock is the integer `10 ^ 21`. -/
def crate : Product :=
  { id := .num 4, name := "Crate", description := some "Bulk", price := .int 1,
    stock := .int 1000000000000000000000, image := none }

/-- A state after loading, whose list is `[mug, cup12]`. -/
def loaded12 : State :=
  { State.init with products := [mug, cup12], loading := false }

/-- A state after loading, whose list is `[crate]`. -/
def crateLoaded : State :=
  { State.init with products := [crate], loading := false }

/-- A second product that carries identifier 1. -/
def mugCopy : Product :=
  { id := .num 1, name := "Mug (large)", description := none, price := .int 25,
    stock := .int 2, image := none }

/-- The state after the list fetch on mount returned `[mug, cup, mugCopy]`, in
which identifier 1 occurs twice. -/
def repeated : State :=
  State.init.run (onMount (.ok [mug, cup, mugCopy]))

/-! ## Auxiliary notions for the proofs -/

/-- The value that `parseInt` reads from a run of decimal digits. -/
def decimalValue (ds : List Char) : Nat :=
  ds.foldl (fun acc c => acc * 10 + (digitValue c).getD 0) 0

/-- What is used of a decimal digit character: its code point is in
`48 .. 57`. -/
def IsDecimalDigit (c : Char) : Prop :=
  48 ≤ c.toNat ∧ c.toNat ≤ 57

/-! ## Lemmas on lists of products -/

theorem map_replace_getElem? (l : List Product) (X : Ident) (P : Product) (i : Nat)
    (p : Product) (h : l[i]? = some p) :
    (l.map fun product => if product.id = X then P else product)[i]? =
      some (if p.id = X then P else p) := by
  simp [List.getElem?_map, h]

theorem filter_ne_eq_self (l : List Product) (X : Ident)
    (h : (l.filter fun p => decide (p.id = X)).length = 0) :
    (l.filter fun product => decide (product.id ≠ X)) = l := by
  induction l with
  | nil => rfl
  | cons a t ih =>
    by_cases ha : a.id = X
    · simp [List.filter_cons, ha] at h
    · simp only [List.filter_cons, ha, decide_False] at h
      simp only [List.filter_cons, ne_eq, ha, not_false_eq_true, decide_True, if_true]
      rw [show (t.filter fun product => decide (¬ product.id = X)) = t from ih h]

theorem filter_ne_split (l : List Product) (X : Ident)
    (h : (l.filter fun p => decide (p.id = X)).length = 1) :
    ∃ pre e post, l = pre ++ e :: post ∧ e.id = X ∧
      (l.filter fun product => decide (product.id ≠ X)) = pre ++ post ∧
      ∀ q ∈ pre ++ post, q.id ≠ X := by
  induction l with
  | nil => simp at h
  | cons a t ih =>
    by_cases ha : a.id = X
    · have ht : (t.filter fun p => decide (p.id = X)).length = 0 := by
        simpa [List.filter_cons, ha] using h
      have hkeep := filter_ne_eq_self t X ht
      refine ⟨[], a, t, rfl, ha, ?_, ?_⟩
      · simp only [List.filter_cons, ne_eq, ha, not_true_eq_false, decide_False,
          List.nil_append]
        simpa using hkeep
      · intro q hq
        have hq' : q ∈ t.filter fun product => decide (product.id ≠ X) := by
          rw [hkeep]; simpa using hq
        simpa using (List.mem_filter.mp hq').2
    · have ht : (t.filter fun p => decide (p.id = X)).length = 1 := by
        simpa [List.filter_cons, ha] using h
      obtain ⟨pre, e, post, hl, he, hf, hall⟩ := ih ht
      refine ⟨a :: pre, e, post, by simp [hl], he, ?_, ?_⟩
      · simp only [List.filter_cons, ne_eq, ha, not_false_eq_true, decide_True, if_true,
          List.cons_append]
        simpa using hf
      · intro q hq
        have hq1 : q ∈ a :: (pre ++ post) := by simpa using hq
        rcases List.mem_cons.mp hq1 with rfl | hq'
        · exact ha
        · exact hall q hq'

/-! ## Lemmas on the host functions -/

theorem digitChar_toNat (d : Nat) (h : d < 10) : (digitChar d).toNat = 48 + d := by
  interval_cases d <;> rfl

theorem digitChar_isDecimalDigit (d : Nat) (h : d < 10) : IsDecimalDigit (digitChar d) := by
  unfold IsDecimalDigit
  rw [digitChar_toNat d h]
  omega

theorem digitValue_of_isDecimalDigit (c : Char) (h : IsDecimalDigit c) :
    digitValue c = some (c.toNat - 48) := by
  unfold digitValue
  simp only [h.1, h.2, and_self, if_true]

theorem isRadixDigit_of_isDecimalDigit (c : Char) (h : IsDecimalDigit c) :
    isRadixDigit 10 c = true := by
  unfold isRadixDigit
  rw [digitValue_of_isDecimalDigit c h]
  have := h.1
  have := h.2
  simp only [decide_eq_true_eq]
  omega

theorem not_white_of_isDecimalDigit (c : Char) (h : IsDecimalDigit c) :
    isStrWhiteSpaceChar c = false := by
  have h1 := h.1
  have h2 := h.2
  unfold isStrWhiteSpaceChar
  simp only [Bool.decide_or, Bool.decide_and, Bool.or_eq_false_iff, Bool.and_eq_false_imp,
    decide_eq_false_iff_not, decide_eq_true_eq]
  omega

theorem ne_of_isDecimalDigit (c d : Char) (h : IsDecimalDigit c)
    (hd : d.toNat < 48 ∨ 57 < d.toNat) : c ≠ d := by
  intro hcd
  subst hcd
  have := h.1
  have := h.2
  omega

theorem decimalDigits_all (fuel n : Nat) : ∀ c ∈ decimalDigits fuel n, IsDecimalDigit c := by
  induction fuel generalizing n with
  | zero => intro c hc; simp [decimalDigits] at hc
  | succ fuel ih =>
    intro c hc
    unfold decimalDigits at hc
    split at hc
    · rename_i hlt
      rw [List.mem_singleton] at hc
      exact hc ▸ digitChar_isDecimalDigit n hlt
    · rcases List.mem_append.mp hc with h | h
      · exact ih _ c h
      · rw [List.mem_singleton] at h
        exact h ▸ digitChar_isDecimalDigit (n % 10) (Nat.mod_lt _ (by decide))

theorem decimalValue_append_singleton (ds : List Char) (c : Char) :
    decimalValue (ds ++ [c]) = decimalValue ds * 10 + (digitValue c).getD 0 := by
  simp [decimalValue, List.foldl_append]

theorem decimalValue_digitChar (d : Nat) (h : d < 10) :
    (digitValue (digitChar d)).getD 0 = d := by
  rw [digitValue_of_isDecimalDigit _ (digitChar_isDecimalDigit d h), digitChar_toNat d h]
  simp

theorem decimalValue_decimalDigits (fuel n : Nat) (h : n < fuel) :
    decimalValue (decimalDigits fuel n) = n := by
  induction fuel generalizing n with
  | zero => omega
  | succ fuel ih =>
    unfold decimalDigits
    split
    · rename_i hlt
      simp [decimalValue, decimalValue_digitChar n hlt]
    · rename_i hge
      rw [decimalValue_append_singleton, ih (n / 10) (by omega),
        decimalValue_digitChar (n % 10) (Nat.mod_lt _ (by decide))]
      omega

theorem decimalDigits_ne_nil (fuel n : Nat) : decimalDigits (fuel + 1) n ≠ [] := by
  unfold decimalDigits
  split <;> simp

theorem decimalDigits_length_le (fuel n k : Nat) (hk : 0 < k) (h : n < 10 ^ k) :
    (decimalDigits fuel n).length ≤ k := by
  induction fuel generalizing n k with
  | zero => simp [decimalDigits]
  | succ fuel ih =>
    unfold decimalDigits
    split
    · simpa using hk
    · rename_i hge
      have hk2 : 2 ≤ k := by
        by_contra hcon
        have : k = 1 := by omega
        subst this
        omega
      have hdiv : n / 10 < 10 ^ (k - 1) := by
        rw [Nat.div_lt_iff_lt_mul (by decide)]
        have : 10 ^ k = 10 ^ (k - 1) * 10 := by
          rw [← Nat.pow_succ]; congr 1; omega
        omega
      have := ih (n / 10) (k - 1) (by omega) hdiv
      simp only [List.length_append, List.length_singleton]
      omega

/-- On a non-empty run of decimal digits `parseInt` gives the Number value of
the decimal. -/
theorem parseInt_digits (ds : List Char) (hne : ds ≠ [])
    (hall : ∀ c ∈ ds, IsDecimalDigit c) :
    parseInt (String.mk ds) = toNumber false (decimalValue ds) := by
  obtain ⟨c, rest, rfl⟩ := List.exists_cons_of_ne_nil hne
  have hc := hall c (List.mem_cons_self _ _)
  have hws : ¬ isStrWhiteSpaceChar c = true := by
    rw [not_white_of_isDecimalDigit c hc]; decide
  have hplus : c ≠ '+' := ne_of_isDecimalDigit c '+' hc (by decide)
  have hminus : c ≠ '-' := ne_of_isDecimalDigit c '-' hc (by decide)
  have hstrip : stripPrefix (c :: rest) = (10, c :: rest) := by
    cases rest with
    | nil => rfl
    | cons b t =>
      have hb := hall b (by simp)
      have hx : b ≠ 'x' := ne_of_isDecimalDigit b 'x' hb (by decide)
      have hX : b ≠ 'X' := ne_of_isDecimalDigit b 'X' hb (by decide)
      simp [stripPrefix, hx, hX]
  have htake : (c :: rest).takeWhile (isRadixDigit 10) = c :: rest :=
    List.takeWhile_eq_self_iff.mpr
      (fun x hx => isRadixDigit_of_isDecimalDigit x (hall x hx))
  unfold parseInt
  simp only [List.dropWhile_cons_of_neg hws, hplus, hminus, or_self, if_false, hstrip, htake]
  simp [decimalValue, hminus]

/-- The same behind a minus sign. -/
theorem parseInt_minus_digits (ds : List Char) (hne : ds ≠ [])
    (hall : ∀ c ∈ ds, IsDecimalDigit c) :
    parseInt (String.mk ('-' :: ds)) = toNumber true (decimalValue ds) := by
  obtain ⟨c, rest, rfl⟩ := List.exists_cons_of_ne_nil hne
  have hc := hall c (List.mem_cons_self _ _)
  have hws : ¬ isStrWhiteSpaceChar '-' = true := by decide
  have hstrip : stripPrefix (c :: rest) = (10, c :: rest) := by
    cases rest with
    | nil => rfl
    | cons b t =>
      have hb := hall b (by simp)
      have hx : b ≠ 'x' := ne_of_isDecimalDigit b 'x' hb (by decide)
      have hX : b ≠ 'X' := ne_of_isDecimalDigit b 'X' hb (by decide)
      simp [stripPrefix, hx, hX]
  have htake : (c :: rest).takeWhile (isRadixDigit 10) = c :: rest :=
    List.takeWhile_eq_self_iff.mpr
      (fun x hx => isRadixDigit_of_isDecimalDigit x (hall x hx))
  unfold parseInt
  simp only [List.dropWhile_cons_of_neg hws, or_true, if_true, hstrip, htake]
  simp [decimalValue]

/-- A candidate that is returned has `x` as its Number value. -/
theorem shortestCandidate_sound (x e v : Nat) (h : shortestCandidate x e = some v) :
    roundToDouble v = x := by
  simp only [shortestCandidate] at h
  split_ifs at h <;> simp_all

/-- The shortest decimal of an integral Number has that Number as its Number
value. -/
theorem roundToDouble_shortestDecimal (x : Nat) (hx : roundToDouble x = x) :
    roundToDouble (shortestDecimal x) = x := by
  have key : ∀ o : Option Nat, (∀ v, o = some v → roundToDouble v = x) →
      roundToDouble (o.getD x) = x := by
    intro o ho
    cases o with
    | none => simpa using hx
    | some v => simpa using ho v rfl
  show roundToDouble ((((List.range (decimalString x).length).reverse).findSome?
    (shortestCandidate x)).getD x) = x
  refine key _ (fun v hv => ?_)
  obtain ⟨e, _, he⟩ := List.exists_of_findSome?_eq_some hv
  exact shortestCandidate_sound x e v he

/-- With enough fuel, `excessBits` leaves a significand below `2 ^ 53`, and at
least `2 ^ 52` when bits were dropped. -/
theorem excessBits_spec (fuel n : Nat) (h : n ≤ fuel) :
    n / 2 ^ excessBits fuel n < 2 ^ 53 ∧
    (excessBits fuel n = 0 ∨ 2 ^ 52 ≤ n / 2 ^ excessBits fuel n) := by
  induction fuel generalizing n with
  | zero =>
    have : n = 0 := by omega
    subst this
    simp [excessBits]
  | succ fuel ih =>
    unfold excessBits
    split
    · rename_i hlt
      simpa using hlt
    · rename_i hge
      have hge' : 2 ^ 53 ≤ n := Nat.le_of_not_lt hge
      have hhalf : n / 2 ≤ fuel := by omega
      obtain ⟨h1, h2⟩ := ih (n / 2) hhalf
      have hdiv : n / 2 ^ (excessBits fuel (n / 2) + 1) =
          n / 2 / 2 ^ excessBits fuel (n / 2) := by
        rw [Nat.pow_succ, Nat.mul_comm, Nat.div_div_eq_div_mul]
      rw [hdiv]
      refine ⟨h1, Or.inr ?_⟩
      rcases h2 with h0 | h52
      · rw [h0]
        simp only [pow_zero, Nat.div_one]
        omega
      · exact h52

/-- Rounding does not take a natural number of `10 ^ 21` or more below
`10 ^ 21`. -/
theorem le_roundToDouble_of_le (v : Nat) (hv : 10 ^ 21 ≤ v) : 10 ^ 21 ≤ roundToDouble v := by
  obtain ⟨h1, h2⟩ := excessBits_spec v v le_rfl
  have hfloor : v / 2 ^ excessBits v v * 2 ^ excessBits v v ≤ roundToDouble v := by
    unfold roundToDouble
    simp only
    split_ifs
    · exact Nat.mul_le_mul_right _ (Nat.le_succ _)
    · exact le_rfl
  generalize excessBits v v = sh at h1 h2 hfloor
  refine le_trans ?_ hfloor
  have hpos : 0 < 2 ^ sh := pow_pos (by decide) sh
  have hsh : 17 ≤ sh := by
    by_contra hcon
    have hpow : 2 ^ sh ≤ 2 ^ 16 := Nat.pow_le_pow_right (by decide) (by omega)
    have hlt : v < 2 ^ 53 * 2 ^ sh := (Nat.div_lt_iff_lt_mul hpos).mp h1
    have hle : 2 ^ 53 * 2 ^ sh ≤ 2 ^ 53 * 2 ^ 16 := Nat.mul_le_mul_left _ hpow
    have hnum : 2 ^ 53 * 2 ^ 16 < 10 ^ 21 := by norm_num
    omega
  rcases Nat.eq_or_lt_of_le hsh with h17 | h18
  · subst h17
    have hnum : (10 : Nat) ^ 21 = 7629394531250000 * 2 ^ 17 := by norm_num
    have hdiv : 7629394531250000 ≤ v / 2 ^ 17 := by
      rw [Nat.le_div_iff_mul_le hpos, ← hnum]; exact hv
    rw [hnum]
    exact Nat.mul_le_mul_right _ hdiv
  · have h52 : 2 ^ 52 ≤ v / 2 ^ sh := by
      rcases h2 with h0 | h52
      · omega
      · exact h52
    have hpow : 2 ^ 18 ≤ 2 ^ sh := Nat.pow_le_pow_right (by decide) h18
    have hnum : (10 : Nat) ^ 21 ≤ 2 ^ 52 * 2 ^ 18 := by norm_num
    exact le_trans hnum (Nat.mul_le_mul h52 hpow)

/-- The shortest decimal of an integral Number below `10 ^ 21` is below
`10 ^ 21`. -/
theorem shortestDecimal_lt (x : Nat) (hx : roundToDouble x = x) (hlt : x < 10 ^ 21) :
    shortestDecimal x < 10 ^ 21 := by
  by_contra hcon
  have := le_roundToDouble_of_le (shortestDecimal x) (Nat.le_of_not_lt hcon)
  rw [roundToDouble_shortestDecimal x hx] at this
  omega

/-- Number::toString of a positive integral Number below `10 ^ 21` is the plain
digits of its shortest decimal. -/
theorem unsignedToString_eq (x : Nat) (hx : roundToDouble x = x) (hlt : x < 10 ^ 21) :
    unsignedToString x = decimalString (shortestDecimal x) := by
  have hlen : (decimalString (shortestDecimal x)).length ≤ 21 :=
    decimalDigits_length_le _ _ 21 (by decide) (shortestDecimal_lt x hx hlt)
  unfold unsignedToString
  simp only [hlen, if_true]

/-- The Number value of a decimal that rounds to `x < 10 ^ 21` is `± x`. -/
theorem toNumber_of_round (negative : Bool) (v x : Nat) (hv : roundToDouble v = x)
    (hlt : x < 10 ^ 21) :
    toNumber negative v = .int (if negative then -(x : Int) else (x : Int)) := by
  have hbig : (10 : Nat) ^ 21 ≤ 16 ^ 256 := by norm_num
  unfold toNumber
  simp only [hv]
  rw [if_neg (by omega)]

/-- Stock round trip: for an integral Number `z` with `|z| < 10 ^ 21`, parsing
the text that `toString` gives returns `z`. -/
theorem parseInt_numberToString (fracToString : Int → Nat → String) (z : Int)
    (hz : roundToDouble z.natAbs = z.natAbs) (hlt : z.natAbs < 10 ^ 21) :
    parseInt (numberToString fracToString (.int z)) = .int z := by
  have hne : decimalString (shortestDecimal z.natAbs) ≠ [] := decimalDigits_ne_nil _ _
  have hall := decimalDigits_all (shortestDecimal z.natAbs + 1) (shortestDecimal z.natAbs)
  have hval : decimalValue (decimalString (shortestDecimal z.natAbs)) =
      shortestDecimal z.natAbs := decimalValue_decimalDigits _ _ (Nat.lt_succ_self _)
  have hround := roundToDouble_shortestDecimal z.natAbs hz
  simp only [numberToString]
  by_cases h0 : z = 0
  · subst h0
    simp only [if_true]
    decide
  · simp only [h0, if_false]
    by_cases hneg : z < 0
    · simp only [hneg, if_true]
      rw [unsignedToString_eq _ hz hlt, parseInt_minus_digits _ hne hall, hval,
        toNumber_of_round true _ _ hround hlt]
      simp only [if_true]
      congr 1
      omega
    · simp only [hneg, if_false]
      rw [unsignedToString_eq _ hz hlt, parseInt_digits _ hne hall, hval,
        toNumber_of_round false _ _ hround hlt]
      simp only [Bool.false_eq_true, if_false]
      congr 1
      omega

/-! ## The claims -/

/-- C1: a successful `updateProduct(X, …)` that received `P` from the server
keeps the length of the list; at every position an entry whose id differs from
`X` is the entry that was there before and an entry whose id is `X` has become
`P`; and any entry of the new list whose id is `X` is `P`. -/
theorem updateProduct_changes_only_matching (s : State) (X : Ident)
    (productData : ProductData) (P : Product) :
    (s.run (updateProduct s X productData (.ok P))).products.length = s.products.length ∧
    (∀ (i : Nat) (p : Product), s.products[i]? = some p →
      (p.id ≠ X → (s.run (updateProduct s X productData (.ok P))).products[i]? = some p) ∧
      (p.id = X → (s.run (updateProduct s X productData (.ok P))).products[i]? = some P)) ∧
    (∀ q ∈ (s.run (updateProduct s X productData (.ok P))).products, q.id = X → q = P) := by
  have hrun : (s.run (updateProduct s X productData (.ok P))).products =
      s.products.map fun product => if product.id = X then P else product := by
    simp [State.run, updateProduct, resetForm, Effect.apply, SetCall.apply]
  rw [hrun]
  refine ⟨by simp, ?_, ?_⟩
  · intro i p hp
    rw [map_replace_getElem? s.products X P i p hp]
    exact ⟨fun hne => by simp [hne], fun heq => by simp [heq]⟩
  · intro q hq hqX
    obtain ⟨p, _, hpq⟩ := List.mem_map.mp hq
    by_cases hp : p.id = X
    · simpa [hp] using hpq.symm
    · simp only [hp, if_false] at hpq
      exact absurd (hpq ▸ hqX) hp

/-- C2 (as amended): when exactly one entry of the list has identifier `X`, a
confirmed and successful `deleteProduct(X)` yields the original list with that
one entry removed: the list splits as `pre ++ e :: post` with `e.id = X`, the
result is `pre ++ post`, and no remaining entry has identifier `X`. -/
theorem deleteProduct_removes_the_entry (s : State) (X : Ident)
    (h : (s.products.filter fun p => decide (p.id = X)).length = 1) :
    ∃ pre e post, s.products = pre ++ e :: post ∧ e.id = X ∧
      (s.run (deleteProduct s X true (.ok ()))).products = pre ++ post ∧
      ∀ q ∈ pre ++ post, q.id ≠ X := by
  have hrun : (s.run (deleteProduct s X true (.ok ()))).products =
      s.products.filter fun product => decide (product.id ≠ X) := by
    simp [State.run, deleteProduct, Effect.apply, SetCall.apply]
  rw [hrun]
  exact filter_ne_split s.products X h

/-- Witness of C2: deleting identifier 1 from `[mug, cup]`. -/
theorem deleteProduct_removes_the_entry_witness :
    (loaded.products.filter fun p => decide (p.id = .num 1)).length = 1 ∧
    ∃ pre e post, loaded.products = pre ++ e :: post ∧ e.id = .num 1 ∧
      (loaded.run (deleteProduct loaded (.num 1) true (.ok ()))).products = pre ++ post ∧
      ∀ q ∈ pre ++ post, q.id ≠ .num 1 :=
  ⟨by decide, deleteProduct_removes_the_entry loaded (.num 1) (by decide)⟩

/-- Counterexample to C2 as stated: the list fetch returned `[mug, cup, mugCopy]`,
where `mug` and `mugCopy` both carry identifier 1.  The Delete button of the
first card calls `deleteProduct(mug.id)`; once confirmed and successful it leaves
`[cup]`: two entries are gone, so the result is not the list with exactly one
entry removed. -/
theorem deleteProduct_repeated_id_removes_both :
    repeated.products = [mug, cup, mugCopy] ∧
    mug ∈ repeated.products ∧
    (repeated.run (deleteProduct repeated mug.id true (.ok ()))).products = [cup] ∧
    (repeated.run (deleteProduct repeated mug.id true (.ok ()))).products.length + 2 =
      repeated.products.length ∧
    ¬ ∃ pre e post, repeated.products = pre ++ e :: post ∧ e.id = mug.id ∧
      (repeated.run (deleteProduct repeated mug.id true (.ok ()))).products = pre ++ post := by
  have hlist : repeated.products = [mug, cup, mugCopy] := by decide
  have hrun : (repeated.run (deleteProduct repeated mug.id true (.ok ()))).products =
      [cup] := by
    decide
  refine ⟨hlist, by decide, hrun, by decide, ?_⟩
  rintro ⟨pre, e, post, hl, _, hr⟩
  rw [hrun] at hr
  rw [hlist] at hl
  have h1 := congrArg List.length hl
  have h2 := congrArg List.length hr
  simp at h1 h2
  omega

/-- C3: a successful `createProduct` that received `P` from the server yields
the list followed by `P`: one entry more, `P` is the last entry, the entries
before it are the list as it was; the modal is closed and every field of the
draft is the empty string. -/
theorem createProduct_appends_returned (s : State) (productData : ProductData)
    (P : Product) :
    (s.run (createProduct s productData (.ok P))).products = s.products ++ [P] ∧
    (s.run (createProduct s productData (.ok P))).products.length = s.products.length + 1 ∧
    (s.run (createProduct s productData (.ok P))).products.getLast? = some P ∧
    ((s.run (createProduct s productData (.ok P))).products.getLast?.map Product.id
      = some P.id) ∧
    (s.run (createProduct s productData (.ok P))).products.take s.products.length
      = s.products ∧
    (s.run (createProduct s productData (.ok P))).showModal = false ∧
    (s.run (createProduct s productData (.ok P))).formData =
      { name := "", description := "", price := "", stock := "", image := "" } := by
  have hrun : s.run (createProduct s productData (.ok P)) =
      { s with products := s.products ++ [P], showModal := false, formData := emptyForm } := by
    simp [State.run, createProduct, resetForm, Effect.apply, SetCall.apply]
  rw [hrun]
  simp [emptyForm]

/-- C4: when the list fetch issued on mount, from the initial state, fails, the
resulting state has an error message, an empty product list and
`loading = false`. -/
theorem fetchProducts_failure_on_mount (err : HttpError) :
    (State.init.run (onMount (.error err))).error ≠ none ∧
    (State.init.run (onMount (.error err))).products = [] ∧
    (State.init.run (onMount (.error err))).loading = false := by
  simp [State.run, onMount, fetchProducts, Effect.apply, SetCall.apply, State.init]

/-- C5: from any state, a successful list fetch that returned `data` leaves the
product list equal to `data`, `error = null` and `loading = false`, and the view
rendered from that state has exactly `data.length` product cards. -/
theorem fetchProducts_success (s : State) (data : List Product) :
    (s.run (fetchProducts (.ok data))).products = data ∧
    (s.run (fetchProducts (.ok data))).error = none ∧
    (s.run (fetchProducts (.ok data))).loading = false ∧
    (render (s.run (fetchProducts (.ok data)))).cardCount = data.length := by
  have hrun : s.run (fetchProducts (.ok data)) =
      { s with products := data, error := none, loading := false } := by
    simp [State.run, fetchProducts, Effect.apply, SetCall.apply]
  rw [hrun]
  refine ⟨rfl, rfl, rfl, ?_⟩
  cases data with
  | nil => simp [render, View.cardCount]
  | cons a t => simp [render, View.cardCount]

/-- C6: when the request of `createProduct`, of `updateProduct` or of a
confirmed `deleteProduct` fails, the state afterwards is the state before with
the error cell set to a message: the product list, the modal flag, the editing
identity and the draft (and the loading flag) are what they were. -/
theorem failed_mutation_sets_only_error (s : State) (X : Ident)
    (productData : ProductData) (err : HttpError) :
    (∃ message, s.run (createProduct s productData (.error err)) =
      { s with error := some message }) ∧
    (∃ message, s.run (updateProduct s X productData (.error err)) =
      { s with error := some message }) ∧
    (∃ message, s.run (deleteProduct s X true (.error err)) =
      { s with error := some message }) := by
  refine ⟨⟨"Failed to create product", ?_⟩, ⟨"Failed to update product", ?_⟩,
    ⟨"Failed to delete product", ?_⟩⟩ <;>
  simp [State.run, createProduct, updateProduct, deleteProduct, Effect.apply, SetCall.apply]

/-- C7: `handleSubmit` issues exactly one request; it is an Update (PATCH)
request if and only if an editing identity is set, and then it goes to the
identifier of the editing product; otherwise it is a Create (POST) request.
In both cases the body carries the name, description and image of the draft as
they are, `parseFloat` of the price text and `parseInt` of the stock text. -/
theorem handleSubmit_chooses_request (parseFloat : String → JSNumber) (s : State)
    (response : Except HttpError Product) :
    ((∃ id body, requests (handleSubmit parseFloat s response) = [.patch id body]) ↔
      s.editingProduct ≠ none) ∧
    (∀ editing, s.editingProduct = some editing →
      requests (handleSubmit parseFloat s response) =
        [.patch editing.id
          { name := s.formData.name, description := s.formData.description,
            price := parseFloat s.formData.price, stock := parseInt s.formData.stock,
            image := s.formData.image }]) ∧
    (s.editingProduct = none →
      requests (handleSubmit parseFloat s response) =
        [.post
          { name := s.formData.name, description := s.formData.description,
            price := parseFloat s.formData.price, stock := parseInt s.formData.stock,
            image := s.formData.image }]) := by
  have hsome : ∀ editing, s.editingProduct = some editing →
      requests (handleSubmit parseFloat s response) =
        [.patch editing.id (productDataOf parseFloat s.formData)] := by
    intro editing h
    cases response <;>
      simp [handleSubmit, h, updateProduct, requests, resetForm]
  have hnone : s.editingProduct = none →
      requests (handleSubmit parseFloat s response) =
        [.post (productDataOf parseFloat s.formData)] := by
    intro h
    cases response <;>
      simp [handleSubmit, h, createProduct, requests, resetForm]
  refine ⟨?_, fun editing h => hsome editing h, fun h => hnone h⟩
  constructor
  · rintro ⟨id, body, hreq⟩ hnil
    rw [hnone hnil] at hreq
    simp at hreq
  · intro hne
    cases hed : s.editingProduct with
    | none => exact absurd hed hne
    | some editing => exact ⟨_, _, hsome editing hed⟩

/-- C8: the `onHide` handler of the modal and the Cancel button issue no
request and leave the state as it was but for the modal flag, which is false
afterwards: the product list, the draft and the editing identity keep their
values. -/
theorem cancel_only_closes_modal (s : State) :
    s.run modalOnHide = { s with showModal := false } ∧
    s.run cancelOnClick = { s with showModal := false } ∧
    (s.run modalOnHide).products = s.products ∧
    (s.run cancelOnClick).products = s.products ∧
    requests modalOnHide = [] ∧ requests cancelOnClick = [] := by
  simp [State.run, modalOnHide, cancelOnClick, Effect.apply, SetCall.apply, requests]

/-- C9: `deleteProduct(X)` issues a DELETE request only when the user has
confirmed; when the user declines, it issues no request and the state (product
list, error, modal flag, editing identity, draft, loading flag) is unchanged. -/
theorem deleteProduct_declined (s : State) (X : Ident) (response : Except HttpError Unit) :
    (∀ confirm, Request.delete X ∈ requests (deleteProduct s X confirm response) →
      confirm = true) ∧
    requests (deleteProduct s X false response) = [] ∧
    s.run (deleteProduct s X false response) = s := by
  refine ⟨?_, by simp [deleteProduct, requests], by simp [deleteProduct, State.run]⟩
  intro confirm h
  cases confirm with
  | true => rfl
  | false => simp [deleteProduct, requests] at h

theorem orEmpty_eq_getD (v : Option String) : orEmpty v = v.getD "" := by
  cases v with
  | none => rfl
  | some t =>
    by_cases ht : t = ""
    · simp [orEmpty, ht]
    · simp [orEmpty, ht]

/-- The request of `handleSubmit` right after `handleEdit(P)`. -/
theorem requests_handleSubmit_after_handleEdit (fracToString : Int → Nat → String)
    (parseFloat : String → JSNumber) (s : State) (P : Product)
    (response : Except HttpError Product) :
    requests (handleSubmit parseFloat (s.run (handleEdit fracToString P)) response) =
      [.patch P.id
        { name := P.name
          description := orEmpty P.description
          price := parseFloat (numberToString fracToString P.price)
          stock := parseInt (numberToString fracToString P.stock)
          image := orEmpty P.image }] := by
  cases response <;>
    simp [handleSubmit, handleEdit, State.run, Effect.apply, SetCall.apply, updateProduct,
      requests, resetForm, productDataOf]

/-- C10 (as amended): for every product `P` whose stock is an integral Number
`z` with `|z| < 10 ^ 21`, `handleEdit(P)` followed by `handleSubmit` issues one
Update request, against the identifier of `P`, whose body has the name and the
stock of `P`, and the description and image of `P` or the empty string where
`P` has none.  (`hz` says that the integer `z` is a Number: it has at most 53
significant bits.) -/
theorem edit_then_submit_round_trip (fracToString : Int → Nat → String)
    (parseFloat : String → JSNumber) (s : State) (P : Product) (z : Int)
    (response : Except HttpError Product)
    (hstock : P.stock = .int z) (hz : roundToDouble z.natAbs = z.natAbs)
    (hlt : z.natAbs < 10 ^ 21) :
    ∃ body,
      requests (handleSubmit parseFloat (s.run (handleEdit fracToString P)) response) =
        [.patch P.id body] ∧
      body.name = P.name ∧ body.stock = P.stock ∧
      body.description = P.description.getD "" ∧ body.image = P.image.getD "" := by
  refine ⟨_, requests_handleSubmit_after_handleEdit fracToString parseFloat s P response,
    rfl, ?_, orEmpty_eq_getD _, orEmpty_eq_getD _⟩
  show parseInt (numberToString fracToString P.stock) = P.stock
  rw [hstock]
  exact parseInt_numberToString fracToString z hz hlt

/-- Witness of C10: editing `cup12`, whose stock is 12, from the list
`[mug, cup12]`. -/
theorem edit_then_submit_round_trip_witness :
    cup12.stock = .int 12 ∧ roundToDouble (12 : Int).natAbs = (12 : Int).natAbs ∧
    (12 : Int).natAbs < 10 ^ 21 ∧
    ∀ (fracToString : Int → Nat → String) (parseFloat : String → JSNumber),
      ∃ body,
        requests (handleSubmit parseFloat (loaded12.run (handleEdit fracToString cup12))
          (.ok cup12)) = [.patch cup12.id body] ∧
        body.name = cup12.name ∧ body.stock = cup12.stock ∧
        body.description = cup12.description.getD "" ∧
        body.image = cup12.image.getD "" :=
  ⟨rfl, by decide, by decide, fun fracToString parseFloat =>
    edit_then_submit_round_trip fracToString parseFloat loaded12 cup12 12 (.ok cup12) rfl
      (by decide) (by decide)⟩

/-- Counterexample to C10 as stated: the stock of `crate` is the integer
`10 ^ 21`, which is a Number; `toString` gives `"1e+21"` for it and `parseInt`
reads `1` from that text, so the Update request issued after `handleEdit(crate)`
carries stock `1`, not the stock of `crate`. -/
theorem edit_then_submit_large_stock :
    crate.stock = .int (10 ^ 21) ∧ roundToDouble (10 ^ 21) = 10 ^ 21 ∧
    ∀ (fracToString : Int → Nat → String) (parseFloat : String → JSNumber),
      (crateLoaded.run (handleEdit fracToString crate)).formData.stock = "1e+21" ∧
      ∃ body,
        requests (handleSubmit parseFloat (crateLoaded.run (handleEdit fracToString crate))
          (.ok crate)) = [.patch crate.id body] ∧
        body.stock = .int 1 ∧ body.stock ≠ crate.stock := by
  refine ⟨by decide, by decide, fun fracToString parseFloat => ?_⟩
  have htext : numberToString fracToString crate.stock = "1e+21" := by
    simp only [crate, numberToString]
    decide
  have hparse : parseInt (numberToString fracToString crate.stock) = .int 1 := by
    rw [htext]
    decide
  have hreq := requests_handleSubmit_after_handleEdit fracToString parseFloat crateLoaded
    crate (.ok crate)
  rw [hparse] at hreq
  refine ⟨?_, _, hreq, rfl, ?_⟩
  · simpa [handleEdit, State.run, Effect.apply, SetCall.apply] using htext
  · show JSNumber.int 1 ≠ crate.stock
    decide

end Products
